import Mathlib

/-!
Shallow embedding of the hallucination benchmarking engine of
`demo_gemma/get_gemma_responses.py`.

Strings are modelled as Lean `String` / `List Char` (ASCII view of the
Python text), Python `float` score constants as exact rationals, Python
`Optional` as `Option`, uncaught Python exceptions as `Except.error`,
and JSON values as a small inductive `JsonValue`.
-/

/-- Model of a parsed JSON scalar value as it appears in the fact-store
records and in the Ollama response body.  The dataset records used by the
loader only carry scalars, so nested arrays and objects are not needed. -/
inductive JsonValue where
  | null
  | bool (b : Bool)
  | int (n : Int)
  | str (s : String)
deriving DecidableEq, Repr

/-- A raw fact record: a JSON object modelled as an association list from
field name to value (Python `dict` as produced by `json.load`). -/
abbrev RawRecord : Type := List (String × JsonValue)

/-- Model of the Python dataclass `HistoricalEvent` as constructed by the
loader.  Python performs no run-time type checking of dataclass fields, so
the fields hold whatever `JsonValue` the record carried. -/
structure HistoricalEventDyn where
  text : JsonValue
  year : JsonValue
  date : JsonValue
  primary_category : JsonValue
  violence_level : JsonValue
  cultural_region : JsonValue
  historical_period : JsonValue
deriving DecidableEq, Repr

/-- The seven required field names checked by `load_historical_events`
(`all(key in item for key in [...])`). -/
def requiredKeys : List String :=
  ["text", "year", "date", "primary_category",
   "violence_level", "cultural_region", "historical_period"]

/-- Model of `all(key in item for key in requiredKeys)`: key-presence check of the
loader; it looks only at the keys, never at the values. -/
def hasAllKeys (item : RawRecord) : Bool :=
  requiredKeys.all (fun k => (List.lookup k item).isSome)

/-- Model of `item[k]` for a key known to be present (the loader only subscripts
after `hasAllKeys` succeeded; `.null` is an unreachable default). -/
def getField (item : RawRecord) (k : String) : JsonValue :=
  (List.lookup k item).getD JsonValue.null

/-- Model of `HistoricalEvent(text=item[...], ...)`: the constructor call of the
loader, copying the seven raw values unchanged. -/
def mkEvent (item : RawRecord) : HistoricalEventDyn :=
  { text := getField item "text"
    year := getField item "year"
    date := getField item "date"
    primary_category := getField item "primary_category"
    violence_level := getField item "violence_level"
    cultural_region := getField item "cultural_region"
    historical_period := getField item "historical_period" }

/-- One source file as seen by the loader after `open`/`json.load`: either
the records it parsed to (a JSON array of objects), or the message of the
exception raised while reading or parsing it (caught by the per-file
`except` block).  The directory glob that produces this list is I/O glue
outside the embedding. -/
abbrev SourceFile : Type := Except String (List RawRecord)

/-- The per-file body of the loader loop: an unreadable or malformed file
contributes no events (its exception is caught and the loop continues);
a parsed file contributes, in order, one event per record that has all
seven required keys. -/
def processFile : SourceFile → List HistoricalEventDyn
  | Except.error _ => []
  | Except.ok items => (items.filter hasAllKeys).map mkEvent

/-- The console messages `load_historical_events` prints, in order:
the found-files count, one error line per failing file, and the final
loaded-events count.  No other message is printed by the function. -/
inductive LoadLog where
  | foundFiles (n : Nat)
  | fileError (msg : String)
  | loaded (n : Nat)
deriving DecidableEq, Repr

/-- The function `load_historical_events`, modelled on the list of source files found
in the data directory: returns the accumulated event list together with
the complete console output. -/
def load_historical_events (files : List SourceFile) :
    List HistoricalEventDyn × List LoadLog :=
  let events := files.flatMap processFile
  (events,
    LoadLog.foundFiles files.length ::
      files.filterMap (fun f =>
        match f with
        | Except.error e => some (LoadLog.fileError e)
        | Except.ok _ => none)
      ++ [LoadLog.loaded events.length])

/-- The statically typed view of `HistoricalEvent` used by the benchmark
pipeline (questions, scoring): fields as annotated on the dataclass. -/
structure HistoricalEvent where
  text : String
  year : Int
  date : String
  primary_category : String
  violence_level : String
  cultural_region : String
  historical_period : String
deriving DecidableEq, Repr

/-- Model of the dataclass `TestResult`. -/
structure TestResult where
  event : HistoricalEvent
  question : String
  model_response : String
  extracted_year : Option Int
  is_correct : Bool
  confidence_score : ℚ
  model_name : String
deriving DecidableEq, Repr

/-- The function `generate_question_from_event`: the fixed question template. -/
def generate_question_from_event (event : HistoricalEvent) : String :=
  "What year did this event occur: " ++ event.text ++ "?"

/-! ### Answer extraction (`extract_year_from_response`)

The two regex patterns of the source are
`\b(1[5-9]\d{2}|20[0-2]\d)\b` (strict 4-digit year, 1500 to 2029) and
`\b(\d{4})\b` (generic 4-digit run).  Both match exactly four digit
characters delimited by word boundaries; since a digit is a word
character, the boundary before the match holds iff the preceding
character is absent or not a word character, and symmetrically after.
The code inspects only `matches[0]`, the leftmost match, which the
scanner below computes by trying every position left to right. -/

/-- A word character for the `\b` boundary (ASCII view of `\w`). -/
def isWordChar (c : Char) : Bool :=
  c.isAlphanum || c == '_'

/-- A digit character (`\d`, ASCII view). -/
def isDigitChar (c : Char) : Bool :=
  48 ≤ c.toNat && c.toNat ≤ 57

/-- Numeric value of a digit character. -/
def digitVal (c : Char) : Nat := c.toNat - 48

/-- The `\b` before the four digits: start of string or a preceding
non-word character (`prev` is the character just before the current
scan position, `none` at the start of the string). -/
def boundaryBefore : Option Char → Bool
  | none => true
  | some c => !isWordChar c

/-- The `\b` after the four digits: end of string or a following
non-word character. -/
def boundaryAfter : List Char → Bool
  | [] => true
  | c :: _ => !isWordChar c

/-- The alternation `1[5-9]\d{2}|20[0-2]\d` on four characters already
known to be digits, expressed on their numeric values: first digit 1 and
second digit 5 to 9, or leading digits 2,0 and third digit 0 to 2. -/
def strictCond (a b c _d : Char) : Bool :=
  (digitVal a == 1 && decide (5 ≤ digitVal b)) ||
  (digitVal a == 2 && digitVal b == 0 && decide (digitVal c ≤ 2))

/-- Numeric value of a four-digit match (`int(matches[0])`). -/
def fourDigitVal (a b c d : Char) : Nat :=
  1000 * digitVal a + 100 * digitVal b + 10 * digitVal c + digitVal d

/-- Attempt to match one of the two patterns at the current position:
the next four characters are digits delimited by word boundaries, and,
when `strict` is set, additionally satisfy the strict alternation.
Returns the numeric value of the matched digits. -/
def matchHere (strict : Bool) (prev : Option Char) : List Char → Option Nat
  | a :: b :: c :: d :: rest =>
    if boundaryBefore prev && isDigitChar a && isDigitChar b &&
        isDigitChar c && isDigitChar d && boundaryAfter rest &&
        (!strict || strictCond a b c d) then
      some (fourDigitVal a b c d)
    else
      none
  | _ => none

/-- Leftmost match of a pattern (`re.findall(pattern, response)[0]`):
try the pattern at each position from left to right. -/
def scanFirst (strict : Bool) (prev : Option Char) : List Char → Option Nat
  | [] => none
  | a :: rest =>
    match matchHere strict prev (a :: rest) with
    | some v => some v
    | none => scanFirst strict (some a) rest

/-- The range filter applied to a leftmost match inside the pattern
loop: `if 1500 <= year <= 2024: return year`, otherwise fall through. -/
def acceptYear (m : Option Nat) : Option Int :=
  match m with
  | some y => if 1500 ≤ y ∧ y ≤ 2024 then some (y : Int) else none
  | none => none

/-- The function `extract_year_from_response`: empty response yields no extraction;
otherwise run the strict pattern, return its leftmost match if in
[1500, 2024]; otherwise fall through to the generic pattern and return
its leftmost match if in range; otherwise no extraction. -/
def extract_year_from_response (response : List Char) : Option Int :=
  if response.isEmpty then none
  else
    match acceptYear (scanFirst true none response) with
    | some y => some y
    | none => acceptYear (scanFirst false none response)

/-- The leftmost match of the first pattern that matches at all: the
strict pattern takes precedence, the generic pattern is consulted only
when the strict one has no match anywhere. -/
def firstPatternMatch (response : List Char) : Option Nat :=
  match scanFirst true none response with
  | some y => some y
  | none => scanFirst false none response

/-! ### Scoring (`calculate_accuracy_score`) -/

/-- The function `calculate_accuracy_score`: absent extraction scores (False, 0.0);
an exact match scores (True, 1.0); otherwise the confidence decays with
the absolute year distance through the hard breakpoints 1, 5, 10, 50. -/
def calculate_accuracy_score (extracted_year : Option Int)
    (ground_truth_year : Int) : Bool × ℚ :=
  match extracted_year with
  | none => (false, 0)
  | some y =>
    if y = ground_truth_year then (true, 1)
    else
      let year_diff := (y - ground_truth_year).natAbs
      if year_diff ≤ 1 then (false, 8/10)
      else if year_diff ≤ 5 then (false, 6/10)
      else if year_diff ≤ 10 then (false, 4/10)
      else if year_diff ≤ 50 then (false, 2/10)
      else (false, 1/10)

/-! ### Model query client (`query_ollama`) -/

/-- The outcome of `requests.post` as seen by `query_ollama`: either a
`RequestException` raised by the transport (connection error, timeout),
or an HTTP response with a status code and a parsed JSON body, modelled
as an association list (response bodies whose JSON fails to parse raise
a `RequestException` subclass in the transport layer and fall under
`exc`). -/
inductive HttpOutcome where
  | exc (msg : String)
  | resp (status : Nat) (body : List (String × JsonValue))
deriving DecidableEq, Repr

/-- The function `query_ollama`, modelled on the outcome of its single POST request.
`Except.error` models an exception escaping the function uncaught;
`Except.ok none` is the caught-and-logged failure path returning `None`;
`Except.ok (some v)` is `response.json()["response"]`.  The `except`
clause catches only `RequestException`: transport errors and the
`HTTPError` raised by `raise_for_status` on a 4xx or 5xx status.  A
successful status whose body lacks the `"response"` key raises a
`KeyError`, which is not a `RequestException` and escapes. -/
def query_ollama (outcome : HttpOutcome) : Except String (Option JsonValue) :=
  match outcome with
  | HttpOutcome.exc _ => Except.ok none
  | HttpOutcome.resp status body =>
    if 400 ≤ status ∧ status < 600 then Except.ok none
    else
      match List.lookup "response" body with
      | some v => Except.ok (some v)
      | none => Except.error "KeyError: response"

/-! ### Benchmark runner (`test_model_for_hallucinations`)

`random.sample(events, k)` draws `k` elements at distinct positions.
It is modelled as a deterministic selection driven by a stream of
choices `rand`: each step removes the chosen position from the pool, so
no position is drawn twice whatever the stream does.  The model query
is an oracle `query` from the call index and prompt to the outcome
`query_ollama` returned for that call (`None` on failure). -/

/-- Draw `k` elements without replacement, one by one, the choice at
each step taken from the stream `rand` (reduced modulo the remaining
pool size). -/
def sampleWithoutReplacement {α : Type} :
    List α → Nat → (Nat → Nat) → List α
  | _, 0, _ => []
  | [], _ + 1, _ => []
  | a :: pool, k + 1, rand =>
    let i := rand 0 % (a :: pool).length
    (a :: pool).getD i a ::
      sampleWithoutReplacement ((a :: pool).eraseIdx i) k (fun n => rand (n + 1))

/-- Model of `random.sample(events, min(num_tests, len(events)))`. -/
def random_sample {α : Type} (events : List α) (num_tests : Nat)
    (rand : Nat → Nat) : List α :=
  sampleWithoutReplacement events (min num_tests events.length) rand

/-- The body of the runner loop for one sampled event: generate the
question, query the model, and on success extract, score and build the
`TestResult`; a failed query records nothing (`continue`). -/
def run_one (model_name : String) (query : Nat → String → Option String)
    (i : Nat) (event : HistoricalEvent) : Option TestResult :=
  let question := generate_question_from_event event
  match query i question with
  | none => none
  | some response =>
    let extracted := extract_year_from_response response.data
    let score := calculate_accuracy_score extracted event.year
    some { event := event
           question := question
           model_response := response
           extracted_year := extracted
           is_correct := score.1
           confidence_score := score.2
           model_name := model_name }

/-- The function `test_model_for_hallucinations`: sample the events, then run the
loop body over the sampled events in order, keeping the results of the
iterations whose query succeeded. -/
def test_model_for_hallucinations (events : List HistoricalEvent)
    (model_name : String) (num_tests : Nat) (rand : Nat → Nat)
    (query : Nat → String → Option String) : List TestResult :=
  ((random_sample events num_tests rand).enum).filterMap
    (fun p => run_one model_name query p.1 p.2)

/-! ### Result aggregation (`print_summary`) -/

/-- The figures `print_summary` reports for a non-empty result list. -/
structure Summary where
  model_name : String
  total_tests : Nat
  correct_answers : Nat
  accuracy_pct : ℚ
  avg_confidence : ℚ
deriving DecidableEq, Repr

/-- The function `print_summary`: an empty result list reports no data (`none`) and
performs no division; otherwise it reports the header model name, the
total, the correct count, the accuracy percentage and the mean
confidence. -/
def print_summary (results : List TestResult) : Option Summary :=
  match results with
  | [] => none
  | r :: _ =>
    let total_tests := results.length
    let correct_answers := (results.filter (fun t => t.is_correct)).length
    let avg_confidence :=
      (results.map (fun t => t.confidence_score)).sum / (total_tests : ℚ)
    some { model_name := r.model_name
           total_tests := total_tests
           correct_answers := correct_answers
           accuracy_pct := (correct_answers : ℚ) / (total_tests : ℚ) * 100
           avg_confidence := avg_confidence }

/-! ### Concrete fixtures used by witnesses and counterexamples -/

/-- A fixture event with ground-truth year 1969. -/
def evA : HistoricalEvent :=
  { text := "A", year := 1969, date := "", primary_category := ""
    violence_level := "", cultural_region := "", historical_period := "" }

/-- A second fixture event with ground-truth year 1970. -/
def evB : HistoricalEvent :=
  { text := "B", year := 1970, date := "", primary_category := ""
    violence_level := "", cultural_region := "", historical_period := "" }

/-- A correct fixture result (confidence 1.0). -/
def resCorrect : TestResult :=
  { event := evA, question := "q", model_response := "1969"
    extracted_year := some 1969, is_correct := true
    confidence_score := 1, model_name := "m" }

/-- An incorrect fixture result (confidence 0.2). -/
def resFar : TestResult :=
  { event := evA, question := "q", model_response := "2000"
    extracted_year := some 2000, is_correct := false
    confidence_score := 2/10, model_name := "m" }

/-! ### Helper lemmas -/

/-- A value returned by the range filter lies in [1500, 2024]. -/
lemma acceptYear_some {m : Option Nat} {y : Int}
    (h : acceptYear m = some y) : 1500 ≤ y ∧ y ≤ 2024 := by
  cases m with
  | none => simp [acceptYear] at h
  | some v =>
    simp only [acceptYear] at h
    split at h
    · rename_i hv
      cases h
      omega
    · cases h

/-- The length of a `filterMap` counts the inputs the function keeps. -/
lemma length_filterMap_eq_countP {α β : Type} (f : α → Option β) :
    ∀ l : List α, (l.filterMap f).length = l.countP (fun a => (f a).isSome)
  | [] => rfl
  | a :: l => by
    rw [List.filterMap_cons, List.countP_cons]
    cases h : f a <;>
      simp [h, length_filterMap_eq_countP f l, Nat.add_comm]

/-- Key presence looked up in an association list depends only on the
list of keys, never on the stored values. -/
lemma lookup_isSome_eq_contains_keys (k : String) :
    ∀ item : RawRecord,
      (List.lookup k item).isSome = (item.map Prod.fst).contains k
  | [] => rfl
  | (k', v) :: item => by
    simp only [List.lookup, List.map_cons, List.contains_cons]
    cases h : k == k'
    · have hne : ¬k = k' := by simpa [beq_iff_eq] using h
      simp [h, lookup_isSome_eq_contains_keys k item, hne]
    · simp [h]

/-- The sampler returns `min k |pool|` elements. -/
lemma sampleWithoutReplacement_length {α : Type} :
    ∀ (k : Nat) (pool : List α) (rand : Nat → Nat),
      (sampleWithoutReplacement pool k rand).length = min k pool.length := by
  intro k
  induction k with
  | zero => intro pool rand; cases pool <;> simp [sampleWithoutReplacement]
  | succ k ih =>
    intro pool rand
    cases pool with
    | nil => simp [sampleWithoutReplacement]
    | cons a t =>
      simp only [sampleWithoutReplacement, List.length_cons]
      rw [ih]
      have hi : rand 0 % (a :: t).length < (a :: t).length :=
        Nat.mod_lt _ (Nat.succ_pos _)
      have hl := List.length_eraseIdx_add_one hi
      simp only [List.length_cons] at hl ⊢
      omega

/-- Taking the element at a valid index and erasing that index is a
permutation of the original list. -/
lemma getD_cons_eraseIdx_perm {α : Type} :
    ∀ (l : List α) (i : Nat) (d : α), i < l.length →
      (l.getD i d :: l.eraseIdx i).Perm l := by
  intro l
  induction l with
  | nil => intro i d h; simp at h
  | cons a t ih =>
    intro i d h
    cases i with
    | zero => simp [List.getD]
    | succ i =>
      have hi : i < t.length := by simpa using h
      exact (List.Perm.swap a (t.getD i d) (t.eraseIdx i)).trans
        ((ih i d hi).cons a)

/-- The sample is drawn at distinct positions of the pool: it is a
sub-permutation of the pool. -/
lemma sampleWithoutReplacement_subperm {α : Type} :
    ∀ (k : Nat) (pool : List α) (rand : Nat → Nat),
      List.Subperm (sampleWithoutReplacement pool k rand) pool := by
  intro k
  induction k with
  | zero =>
    intro pool rand
    cases pool <;> simp [sampleWithoutReplacement]
  | succ k ih =>
    intro pool rand
    cases pool with
    | nil => simp [sampleWithoutReplacement]
    | cons a t =>
      simp only [sampleWithoutReplacement]
      have hi : rand 0 % (a :: t).length < (a :: t).length :=
        Nat.mod_lt _ (Nat.succ_pos _)
      refine List.Subperm.trans ?_
        ((getD_cons_eraseIdx_perm (a :: t) _ a hi).subperm)
      exact (List.subperm_cons _).mpr (ih _ _)

/-- A sub-permutation of a duplicate-free list is duplicate-free. -/
lemma nodup_of_subperm {α : Type} {l₁ l₂ : List α}
    (h : List.Subperm l₁ l₂) (hn : l₂.Nodup) : l₁.Nodup := by
  obtain ⟨l, hperm, hsub⟩ := h
  exact hperm.nodup_iff.mp (hn.sublist hsub)

/-- Whether the loop body records a result depends exactly on whether
the query for that call succeeded. -/
lemma run_one_isSome (model_name : String)
    (query : Nat → String → Option String) (i : Nat)
    (e : HistoricalEvent) :
    (run_one model_name query i e).isSome =
      (query i (generate_question_from_event e)).isSome := by
  cases h : query i (generate_question_from_event e) <;>
    simp [run_one, h]

/-- The events of the recorded results form a subsequence of the
sampled events. -/
lemma results_events_sublist (model_name : String)
    (query : Nat → String → Option String) :
    ∀ (l : List HistoricalEvent) (n : Nat),
      (((List.enumFrom n l).filterMap
          (fun p => run_one model_name query p.1 p.2)).map
        (fun t => t.event)).Sublist l := by
  intro l
  induction l with
  | nil => intro n; simp
  | cons a t ih =>
    intro n
    simp only [List.enumFrom, List.filterMap_cons]
    cases h : run_one model_name query n a with
    | none => exact (ih (n + 1)).cons a
    | some res =>
      have hev : res.event = a := by
        simp only [run_one] at h
        cases hq : query n (generate_question_from_event a) <;>
          rw [hq] at h
        · cases h
        · cases h; rfl
      simp only [List.map_cons, hev]
      exact (ih (n + 1)).cons₂ a

/-! ### Claim theorems -/

/-- C2: `calculate_accuracy_score` implements exactly the specified
scoring table: an absent candidate yields (false, 0.0); a candidate
equal to the true year yields (true, 1.0); otherwise `isCorrect` is
false and the confidence is 0.8 when the absolute distance is at most
1, 0.6 when at most 5, 0.4 when at most 10, 0.2 when at most 50, and
0.1 otherwise; in particular for true year 1969 the boundary table
holds as listed. -/
theorem calculate_accuracy_score_table (y gt : Int) :
    calculate_accuracy_score none gt = (false, 0) ∧
    (y = gt → calculate_accuracy_score (some y) gt = (true, 1)) ∧
    (y ≠ gt → (y - gt).natAbs ≤ 1 →
      calculate_accuracy_score (some y) gt = (false, 8/10)) ∧
    (2 ≤ (y - gt).natAbs → (y - gt).natAbs ≤ 5 →
      calculate_accuracy_score (some y) gt = (false, 6/10)) ∧
    (6 ≤ (y - gt).natAbs → (y - gt).natAbs ≤ 10 →
      calculate_accuracy_score (some y) gt = (false, 4/10)) ∧
    (11 ≤ (y - gt).natAbs → (y - gt).natAbs ≤ 50 →
      calculate_accuracy_score (some y) gt = (false, 2/10)) ∧
    (51 ≤ (y - gt).natAbs →
      calculate_accuracy_score (some y) gt = (false, 1/10)) ∧
    calculate_accuracy_score (some 1969) 1969 = (true, 1) ∧
    calculate_accuracy_score (some 1970) 1969 = (false, 8/10) ∧
    calculate_accuracy_score (some 1974) 1969 = (false, 6/10) ∧
    calculate_accuracy_score (some 1979) 1969 = (false, 4/10) ∧
    calculate_accuracy_score (some 2000) 1969 = (false, 2/10) ∧
    calculate_accuracy_score none 1969 = (false, 0) := by
  refine ⟨rfl, ?_, ?_, ?_, ?_, ?_, ?_, ?_, ?_, ?_, ?_, ?_, rfl⟩ <;>
    · intros
      simp only [calculate_accuracy_score]
      split_ifs <;> first | rfl | omega

/-- Witness for C2 at concrete inputs: year 1971 against truth 1969
has distance 2 and scores (false, 0.6). -/
theorem calculate_accuracy_score_table_witness :
    calculate_accuracy_score (some 1971) 1969 = (false, 6/10) :=
  (calculate_accuracy_score_table 1971 1969).2.2.2.1 (by decide) (by decide)

/-- C3: `extract_year_from_response` never returns a year outside
[1500, 2024]: an out-of-range parsed number yields no extraction rather
than an error; a response containing only "8000" yields no extraction,
and "In 1969, the event occurred" yields 1969. -/
theorem extract_year_from_response_range (response : List Char) (y : Int)
    (h : extract_year_from_response response = some y) :
    (1500 ≤ y ∧ y ≤ 2024) ∧
    extract_year_from_response "8000".data = none ∧
    extract_year_from_response "In 1969, the event occurred".data =
      some 1969 := by
  refine ⟨?_, by decide, by decide⟩
  unfold extract_year_from_response at h
  split at h
  · cases h
  · rename_i hne
    cases h1 : acceptYear (scanFirst true none response) with
    | some v =>
      rw [h1] at h
      cases h
      exact acceptYear_some h1
    | none =>
      rw [h1] at h
      exact acceptYear_some h

/-- Witness for C3: the range bound instantiated on the response
"In 1969, the event occurred", whose extraction is 1969. -/
theorem extract_year_from_response_range_witness :
    ((1500:Int) ≤ 1969 ∧ (1969:Int) ≤ 2024) ∧
    extract_year_from_response "8000".data = none ∧
    extract_year_from_response "In 1969, the event occurred".data =
      some 1969 :=
  extract_year_from_response_range
    "In 1969, the event occurred".data 1969 (by decide)

/-- C9: question generation and answer extraction are deterministic and
stateless: two calls on identical inputs return identical outputs, both
for `generate_question_from_event` and for
`extract_year_from_response`.  The embedding renders both as pure
functions of their argument alone — the source reads no state — so
determinism is congruence. -/
theorem question_and_extraction_deterministic
    (e₁ e₂ : HistoricalEvent) (r₁ r₂ : List Char)
    (he : e₁ = e₂) (hr : r₁ = r₂) :
    generate_question_from_event e₁ = generate_question_from_event e₂ ∧
    extract_year_from_response r₁ = extract_year_from_response r₂ := by
  subst he
  subst hr
  exact ⟨rfl, rfl⟩

/-- Witness for C9 at concrete inputs: two calls on the fixture event
and on the same response text agree. -/
theorem question_and_extraction_deterministic_witness :
    generate_question_from_event evA = generate_question_from_event evA ∧
    extract_year_from_response "1969".data =
      extract_year_from_response "1969".data :=
  question_and_extraction_deterministic evA evA "1969".data "1969".data
    rfl rfl

/-- C10: a raw record carrying all seven required keys is accepted by
the loader whatever the stored values are — the key-presence check
inspects only the field names, and the seven values are copied into the
constructed event unchanged, with no type or non-emptiness validation
(for instance an empty text string or a non-integer year passes
through). -/
theorem load_accepts_record_with_keys_regardless_of_values
    (v₁ v₂ v₃ v₄ v₅ v₆ v₇ : JsonValue) (item : RawRecord) :
    hasAllKeys [("text", v₁), ("year", v₂), ("date", v₃),
      ("primary_category", v₄), ("violence_level", v₅),
      ("cultural_region", v₆), ("historical_period", v₇)] = true ∧
    processFile (Except.ok [[("text", v₁), ("year", v₂), ("date", v₃),
      ("primary_category", v₄), ("violence_level", v₅),
      ("cultural_region", v₆), ("historical_period", v₇)]]) =
      [{ text := v₁, year := v₂, date := v₃, primary_category := v₄,
         violence_level := v₅, cultural_region := v₆,
         historical_period := v₇ }] ∧
    hasAllKeys item = requiredKeys.all
      (fun k => (item.map Prod.fst).contains k) := by
  refine ⟨rfl, rfl, ?_⟩
  simp only [hasAllKeys, lookup_isSome_eq_contains_keys]

/-- C8: aggregation over an empty result list reports no data and
performs no division; over a non-empty list it reports the result
count, the count of correct results, an accuracy of correct/total (as a
percentage) and the mean of the confidence scores; on results
[correct, correct, incorrect] with confidences [1.0, 1.0, 0.2] it
reports accuracy 2/3 (66.66 percent) and mean confidence 11/15 =
0.733... . -/
theorem print_summary_spec (results : List TestResult)
    (hne : results ≠ []) :
    print_summary [] = none ∧
    (∃ s, print_summary results = some s ∧
      s.total_tests = results.length ∧
      s.correct_answers = results.countP (fun t => t.is_correct) ∧
      s.accuracy_pct * (results.length : ℚ) =
        (results.countP (fun t => t.is_correct) : ℚ) * 100 ∧
      s.avg_confidence * (results.length : ℚ) =
        (results.map (fun t => t.confidence_score)).sum) ∧
    print_summary [resCorrect, resCorrect, resFar] =
      some { model_name := "m", total_tests := 3, correct_answers := 2,
             accuracy_pct := 200/3, avg_confidence := 11/15 } := by
  refine ⟨rfl, ?_, ?_⟩
  · match results, hne with
    | r :: rest, _ =>
      have hpos : (0 : ℚ) < ((r :: rest).length : ℚ) := by
        exact_mod_cast Nat.succ_pos rest.length
      have hlen : ((r :: rest).length : ℚ) ≠ 0 := hpos.ne'
      refine ⟨_, rfl, rfl, ?_, ?_, ?_⟩
      · simp [List.countP_eq_length_filter]
      · rw [List.countP_eq_length_filter]
        field_simp
      · exact div_mul_cancel₀ _ hlen
  · norm_num [print_summary, resCorrect, resFar, evA, Summary.mk.injEq]

/-- Witness for C8: the reported figures on the concrete result list
[correct, correct, incorrect] with confidences [1.0, 1.0, 0.2]. -/
theorem print_summary_spec_witness :
    ∃ s, print_summary [resCorrect, resCorrect, resFar] = some s ∧
      s.total_tests = [resCorrect, resCorrect, resFar].length ∧
      s.correct_answers =
        [resCorrect, resCorrect, resFar].countP (fun t => t.is_correct) ∧
      s.accuracy_pct * (([resCorrect, resCorrect, resFar].length : ℚ)) =
        ([resCorrect, resCorrect, resFar].countP
          (fun t => t.is_correct) : ℚ) * 100 ∧
      s.avg_confidence * (([resCorrect, resCorrect, resFar].length : ℚ)) =
        ([resCorrect, resCorrect, resFar].map
          (fun t => t.confidence_score)).sum :=
  (print_summary_spec [resCorrect, resCorrect, resFar]
    (List.cons_ne_nil _ _)).2.1

/-- C6 as stated is refuted on this input: one parsed source file whose
two records each lack some required field.  Both records are dropped,
but the complete console output of the load is the found-files message
(count 1) and the loaded-events message (count 0): no message carries
the number of dropped records (2), so malformed records are dropped but
never counted. -/
theorem load_historical_events_counterexample :
    load_historical_events
        [Except.ok [[("year", JsonValue.int 1969)],
                    [("text", JsonValue.str "t")]]] =
      ([], [LoadLog.foundFiles 1, LoadLog.loaded 0]) ∧
    ∀ msg ∈ (load_historical_events
        [Except.ok [[("year", JsonValue.int 1969)],
                    [("text", JsonValue.str "t")]]]).2,
      msg ≠ LoadLog.foundFiles 2 ∧ msg ≠ LoadLog.loaded 2 := by
  constructor
  · rfl
  · decide

/-- C6 amended: a raw record is accepted iff it carries all seven
required fields; a malformed record is dropped (though not counted)
without aborting the load and only that record is excluded; and a
failure to read one source file contributes nothing but does not
prevent loading events from the remaining files. -/
theorem load_historical_events_amended (fs₁ fs₂ : List SourceFile)
    (e : String) (items pre post : List RawRecord) (r : RawRecord) :
    (load_historical_events (fs₁ ++ Except.ok items :: fs₂)).1 =
      (load_historical_events fs₁).1 ++
        (items.filter hasAllKeys).map mkEvent ++
        (load_historical_events fs₂).1 ∧
    (load_historical_events (fs₁ ++ Except.error e :: fs₂)).1 =
      (load_historical_events (fs₁ ++ fs₂)).1 ∧
    processFile (Except.ok (pre ++ r :: post)) =
      processFile (Except.ok pre) ++
        (if hasAllKeys r then [mkEvent r] else []) ++
        processFile (Except.ok post) ∧
    (mkEvent r ∈ processFile (Except.ok [r]) ↔ hasAllKeys r = true) := by
  refine ⟨?_, ?_, ?_, ?_⟩
  · simp [load_historical_events, List.flatMap_append, processFile]
  · simp [load_historical_events, List.flatMap_append, processFile]
  · cases h : hasAllKeys r <;>
      simp [processFile, List.filter_append, h]
  · cases h : hasAllKeys r <;> simp [processFile, h]

/-- C5 as stated is refuted on this input: a successful (status 200)
response whose JSON body lacks the "response" key makes `query_ollama`
raise an uncaught `KeyError`, which escapes its boundary instead of
collapsing to the typed failure. -/
theorem query_ollama_counterexample :
    query_ollama (HttpOutcome.resp 200 []) =
      Except.error "KeyError: response" := rfl

/-- C5 amended: transport errors and timeouts (the `RequestException`
path) and non-success (4xx or 5xx) responses all collapse to the typed
failure `None`; a successful response carrying the "response" key
yields its value; but the only other possibility is an uncaught
`KeyError` escaping the function, which happens exactly on a
non-error status whose body lacks the "response" key. -/
theorem query_ollama_amended (o : HttpOutcome) (msg e : String)
    (s : Nat) (body : List (String × JsonValue)) (v : JsonValue) :
    query_ollama (HttpOutcome.exc msg) = Except.ok none ∧
    (400 ≤ s → s < 600 →
      query_ollama (HttpOutcome.resp s body) = Except.ok none) ∧
    (¬(400 ≤ s ∧ s < 600) → List.lookup "response" body = some v →
      query_ollama (HttpOutcome.resp s body) = Except.ok (some v)) ∧
    (query_ollama o = Except.error e →
      ∃ s' body', o = HttpOutcome.resp s' body' ∧
        ¬(400 ≤ s' ∧ s' < 600) ∧
        List.lookup "response" body' = none ∧
        e = "KeyError: response") := by
  refine ⟨rfl, ?_, ?_, ?_⟩
  · intro h1 h2
    simp [query_ollama, h1, h2]
  · intro h1 h2
    simp [query_ollama, h1, h2]
  · intro h
    cases o with
    | exc m => simp [query_ollama] at h
    | resp s' body' =>
      refine ⟨s', body', rfl, ?_⟩
      simp only [query_ollama] at h
      split at h
      · cases h
      · rename_i hcond
        cases hl : List.lookup "response" body' with
        | some w => rw [hl] at h; cases h
        | none =>
          rw [hl] at h
          cases h
          exact ⟨hcond, rfl, rfl⟩

/-- Witness for C5 amended, at concrete outcomes: a transport error, a
500 response, a 200 response carrying the key, and the escaping-error
characterization applied to the keyless 200 response. -/
theorem query_ollama_amended_witness :
    query_ollama (HttpOutcome.exc "boom") = Except.ok none ∧
    query_ollama (HttpOutcome.resp 500 []) = Except.ok none ∧
    query_ollama (HttpOutcome.resp 200 [("response", JsonValue.str "hi")]) =
      Except.ok (some (JsonValue.str "hi")) ∧
    (∃ s' body',
      HttpOutcome.resp 200 ([] : List (String × JsonValue)) =
        HttpOutcome.resp s' body' ∧
      ¬(400 ≤ s' ∧ s' < 600) ∧
      List.lookup "response" body' = none ∧
      "KeyError: response" = "KeyError: response") :=
  ⟨(query_ollama_amended (HttpOutcome.exc "boom") "boom" "" 200 [] JsonValue.null).1,
   (query_ollama_amended (HttpOutcome.exc "boom") "boom" "" 500 [] JsonValue.null).2.1
     (by decide) (by decide),
   (query_ollama_amended (HttpOutcome.exc "boom") "boom" "" 200
       [("response", JsonValue.str "hi")] (JsonValue.str "hi")).2.2.1
     (by decide) rfl,
   (query_ollama_amended (HttpOutcome.resp 200 []) "boom"
       "KeyError: response" 200 [] JsonValue.null).2.2.2 rfl⟩

/-- C7: sampling is without replacement: the Runner draws exactly
`min k |pool|` events at distinct pool positions (the sample is a
sub-permutation of the pool) — `k` events when `k` is at most the pool
size, all `|pool|` events otherwise, with no duplicates either way when
the pool has none — and the events of the recorded results are a
subsequence of the sample, so no event is tested twice within one
run. -/
theorem random_sample_spec {α : Type} (pool : List α)
    (events : List HistoricalEvent) (k : Nat) (rand : Nat → Nat)
    (model_name : String) (query : Nat → String → Option String) :
    (random_sample pool k rand).length = min k pool.length ∧
    (k ≤ pool.length → (random_sample pool k rand).length = k) ∧
    (pool.length ≤ k →
      (random_sample pool k rand).length = pool.length) ∧
    List.Subperm (random_sample pool k rand) pool ∧
    (pool.Nodup → (random_sample pool k rand).Nodup) ∧
    (((test_model_for_hallucinations events model_name k rand
        query).map (fun t => t.event)).Sublist
      (random_sample events k rand)) ∧
    (events.Nodup →
      ((test_model_for_hallucinations events model_name k rand
          query).map (fun t => t.event)).Nodup) := by
  have hlen : (random_sample pool k rand).length = min k pool.length := by
    rw [random_sample, sampleWithoutReplacement_length]
    omega
  have hsub : List.Subperm (random_sample pool k rand) pool :=
    sampleWithoutReplacement_subperm _ _ _
  have hres : (((test_model_for_hallucinations events model_name k rand
      query).map (fun t => t.event)).Sublist (random_sample events k rand)) := by
    simpa [test_model_for_hallucinations, List.enum] using
      results_events_sublist model_name query (random_sample events k rand) 0
  refine ⟨hlen, fun h => by omega, fun h => by omega, hsub,
    fun hnd => nodup_of_subperm hsub hnd, hres, fun hnd => ?_⟩
  exact (nodup_of_subperm (sampleWithoutReplacement_subperm _ _ _)
    hnd).sublist hres

/-- Witness for C7 at concrete inputs: pool [10, 20, 30] with k = 2
yields a sample of length 2, a sub-permutation of the pool, without
duplicates; the runner on the two fixture events records events that
appear at most once. -/
theorem random_sample_spec_witness :
    (random_sample [10, 20, 30] 2 (fun _ => 1)).length = 2 ∧
    List.Subperm (random_sample [10, 20, 30] 2 (fun _ => 1))
      [10, 20, 30] ∧
    (random_sample [10, 20, 30] 2 (fun _ => 1)).Nodup ∧
    ((test_model_for_hallucinations [evA, evB] "m" 2 (fun _ => 1)
        (fun _ _ => some "1969")).map (fun t => t.event)).Nodup := by
  obtain h := random_sample_spec [10, 20, 30] [evA, evB] 2 (fun _ => 1)
    "m" (fun _ _ => some "1969")
  exact ⟨h.2.1 (by decide), h.2.2.2.1, h.2.2.2.2.1 (by decide),
    h.2.2.2.2.2.2 (by decide)⟩

/-- C1 as stated is refuted on this input: a pool of two events, sample
size 2, and a query oracle that fails on the first call and succeeds on
the second.  Two events are sampled but only one `TestResult` is
returned — the event whose query failed is skipped by `continue`
without being recorded — while the later event is still processed. -/
theorem test_model_counterexample :
    (random_sample [evA, evB] 2 (fun _ => 0)).length = 2 ∧
    (test_model_for_hallucinations [evA, evB] "m" 2 (fun _ => 0)
        (fun i _ => if i == 0 then none else some "1969")).length = 1 := by
  constructor
  · rfl
  · rfl

/-- C1 amended: the Runner produces one `TestResult` per sampled event
whose model query succeeded — the returned list has exactly as many
results as sampled events with a successful query (in particular all
`min k |pool|` of them when every query succeeds), an event whose query
failed is skipped without a recorded result, and a query failure on one
event never prevents another sampled event from being processed and
recorded. -/
theorem test_model_amended (events : List HistoricalEvent)
    (model_name : String) (num_tests : Nat) (rand : Nat → Nat)
    (query : Nat → String → Option String) (i : Nat)
    (e : HistoricalEvent) (res : TestResult) :
    (test_model_for_hallucinations events model_name num_tests rand
        query).length =
      ((random_sample events num_tests rand).enum).countP
        (fun p => (query p.1 (generate_question_from_event p.2)).isSome) ∧
    ((i, e) ∈ (random_sample events num_tests rand).enum →
      run_one model_name query i e = some res →
      res ∈ test_model_for_hallucinations events model_name num_tests
        rand query) ∧
    ((∀ j q, (query j q).isSome) →
      (test_model_for_hallucinations events model_name num_tests rand
          query).length = min num_tests events.length) := by
  have hcount : (test_model_for_hallucinations events model_name
      num_tests rand query).length =
      ((random_sample events num_tests rand).enum).countP
        (fun p => (query p.1 (generate_question_from_event p.2)).isSome) := by
    rw [test_model_for_hallucinations, length_filterMap_eq_countP]
    exact List.countP_congr (fun p _ => by rw [run_one_isSome])
  refine ⟨hcount, ?_, ?_⟩
  · intro hmem hrun
    exact List.mem_filterMap.mpr ⟨(i, e), hmem, hrun⟩
  · intro hall
    rw [hcount, List.countP_eq_length.mpr (fun p _ => hall _ _),
      List.enum_length, random_sample, sampleWithoutReplacement_length]
    omega

/-- Witness for C1 amended at concrete inputs: with an oracle that
always succeeds, the two fixture events yield exactly two results, and
the successfully queried second sampled event is recorded. -/
theorem test_model_amended_witness :
    (test_model_for_hallucinations [evA, evB] "m" 2 (fun _ => 0)
        (fun _ _ => some "1969")).length = min 2 [evA, evB].length ∧
    { event := evB, question := generate_question_from_event evB
      model_response := "1969", extracted_year := some 1969
      is_correct := false, confidence_score := 8/10
      model_name := "m" } ∈
      test_model_for_hallucinations [evA, evB] "m" 2 (fun _ => 0)
        (fun _ _ => some "1969") := by
  obtain h := test_model_amended [evA, evB] "m" 2 (fun _ => 0)
    (fun _ _ => some "1969") 1 evB
    { event := evB, question := generate_question_from_event evB
      model_response := "1969", extracted_year := some 1969
      is_correct := false, confidence_score := 8/10, model_name := "m" }
  exact ⟨h.2.2 (fun j q => rfl), h.2.1 (by decide) rfl⟩

/-- On four digit characters, the strict alternation holds exactly when
the numeric value lies in [1500, 2029]. -/
lemma strictCond_iff_range {a b c d : Char}
    (ha : isDigitChar a = true) (hb : isDigitChar b = true)
    (hc : isDigitChar c = true) (hd : isDigitChar d = true) :
    strictCond a b c d = true ↔
      1500 ≤ fourDigitVal a b c d ∧ fourDigitVal a b c d ≤ 2029 := by
  simp only [isDigitChar, Bool.and_eq_true, decide_eq_true_eq] at ha hb hc hd
  simp only [strictCond, fourDigitVal, digitVal, Bool.or_eq_true,
    Bool.and_eq_true, beq_iff_eq, decide_eq_true_eq]
  omega

/-- Characterization of a pattern match at a position with at least
four remaining characters. -/
lemma matchHere_eq_some_iff {strict : Bool} {prev : Option Char}
    {a b c d : Char} {rest : List Char} {v : Nat} :
    matchHere strict prev (a :: b :: c :: d :: rest) = some v ↔
      boundaryBefore prev = true ∧ isDigitChar a = true ∧
      isDigitChar b = true ∧ isDigitChar c = true ∧
      isDigitChar d = true ∧ boundaryAfter rest = true ∧
      (strict = true → strictCond a b c d = true) ∧
      v = fourDigitVal a b c d := by
  constructor
  · intro h
    simp only [matchHere] at h
    split at h
    · rename_i hg
      cases h
      simp only [Bool.and_eq_true] at hg
      obtain ⟨⟨⟨⟨⟨⟨hbb, hda⟩, hdb⟩, hdc⟩, hdd⟩, hba⟩, hstr⟩ := hg
      refine ⟨hbb, hda, hdb, hdc, hdd, hba, ?_, rfl⟩
      intro hs
      subst hs
      simpa using hstr
    · cases h
  · rintro ⟨hbb, hda, hdb, hdc, hdd, hba, hstr, hv⟩
    subst hv
    simp only [matchHere]
    rw [if_pos]
    simp only [Bool.and_eq_true]
    refine ⟨⟨⟨⟨⟨⟨hbb, hda⟩, hdb⟩, hdc⟩, hdd⟩, hba⟩, ?_⟩
    cases strict
    · simp
    · simpa using hstr rfl

/-- A position with fewer than four remaining characters matches
neither pattern. -/
lemma matchHere_short {strict : Bool} {prev : Option Char}
    {l : List Char} (h : l.length < 4) :
    matchHere strict prev l = none := by
  match l, h with
  | [], _ => rfl
  | [a], _ => rfl
  | [a, b], _ => rfl
  | [a, b, c], _ => rfl

/-- A match of the strict pattern is a match of the generic pattern
with the same value. -/
lemma matchHere_strict_imp {prev : Option Char} {l : List Char} {v : Nat}
    (h : matchHere true prev l = some v) :
    matchHere false prev l = some v := by
  match l with
  | [] => rw [matchHere_short (by simp)] at h; cases h
  | [a] => rw [matchHere_short (by simp)] at h; cases h
  | [a, b] => rw [matchHere_short (by simp)] at h; cases h
  | [a, b, c] => rw [matchHere_short (by simp)] at h; cases h
  | a :: b :: c :: d :: rest =>
    rw [matchHere_eq_some_iff] at h ⊢
    obtain ⟨h1, h2, h3, h4, h5, h6, h7, h8⟩ := h
    exact ⟨h1, h2, h3, h4, h5, h6,
      fun hc => absurd hc Bool.false_ne_true, h8⟩

/-- A match of the strict pattern has value in [1500, 2029]. -/
lemma matchHere_true_range {prev : Option Char} {l : List Char} {v : Nat}
    (h : matchHere true prev l = some v) : 1500 ≤ v ∧ v ≤ 2029 := by
  match l with
  | [] => rw [matchHere_short (by simp)] at h; cases h
  | [a] => rw [matchHere_short (by simp)] at h; cases h
  | [a, b] => rw [matchHere_short (by simp)] at h; cases h
  | [a, b, c] => rw [matchHere_short (by simp)] at h; cases h
  | a :: b :: c :: d :: rest =>
    rw [matchHere_eq_some_iff] at h
    obtain ⟨h1, h2, h3, h4, h5, h6, h7, h8⟩ := h
    subst h8
    exact (strictCond_iff_range h2 h3 h4 h5).mp (h7 rfl)

/-- A match of the generic pattern either is also a strict match of the
same value, or the strict pattern does not match at this position and
the value lies outside [1500, 2029]. -/
lemma matchHere_false_cases {prev : Option Char} {l : List Char} {v : Nat}
    (h : matchHere false prev l = some v) :
    matchHere true prev l = some v ∨
      (matchHere true prev l = none ∧ ¬(1500 ≤ v ∧ v ≤ 2029)) := by
  match l with
  | [] => rw [matchHere_short (by simp)] at h; cases h
  | [a] => rw [matchHere_short (by simp)] at h; cases h
  | [a, b] => rw [matchHere_short (by simp)] at h; cases h
  | [a, b, c] => rw [matchHere_short (by simp)] at h; cases h
  | a :: b :: c :: d :: rest =>
    rw [matchHere_eq_some_iff] at h
    obtain ⟨h1, h2, h3, h4, h5, h6, _, h8⟩ := h
    cases hs : strictCond a b c d with
    | true =>
      left
      rw [matchHere_eq_some_iff]
      exact ⟨h1, h2, h3, h4, h5, h6, fun _ => hs, h8⟩
    | false =>
      right
      constructor
      · cases htv : matchHere true prev (a :: b :: c :: d :: rest) with
        | none => rfl
        | some w =>
          rw [matchHere_eq_some_iff] at htv
          rw [htv.2.2.2.2.2.2.1 rfl] at hs
          cases hs
      · subst h8
        intro hr
        rw [(strictCond_iff_range h2 h3 h4 h5).mpr hr] at hs
        cases hs

/-- A value found by the strict scan is in [1500, 2029]. -/
lemma scanFirst_true_range :
    ∀ (l : List Char) (prev : Option Char) (v : Nat),
      scanFirst true prev l = some v → 1500 ≤ v ∧ v ≤ 2029 := by
  intro l
  induction l with
  | nil => intro prev v h; cases h
  | cons a rest ih =>
    intro prev v h
    simp only [scanFirst] at h
    cases hm : matchHere true prev (a :: rest) with
    | some w =>
      rw [hm] at h
      cases h
      exact matchHere_true_range hm
    | none =>
      rw [hm] at h
      exact ih (some a) v h

/-- If the strict pattern matches somewhere in the text, the generic
scan also finds a leftmost match, and that match either coincides with
the strict match or lies outside [1500, 2029] (it sits at a strictly
earlier position, where the strict pattern did not match). -/
lemma scanFirst_false_of_true :
    ∀ (l : List Char) (prev : Option Char) (y₁ : Nat),
      scanFirst true prev l = some y₁ →
      ∃ y₂, scanFirst false prev l = some y₂ ∧
        (y₂ = y₁ ∨ ¬(1500 ≤ y₂ ∧ y₂ ≤ 2029)) := by
  intro l
  induction l with
  | nil => intro prev y₁ h; cases h
  | cons a rest ih =>
    intro prev y₁ h
    simp only [scanFirst] at h ⊢
    cases hf : matchHere false prev (a :: rest) with
    | some v =>
      rcases matchHere_false_cases hf with ht | ⟨ht, hnr⟩
      · rw [ht] at h
        have hv : some v = some y₁ := h
        exact ⟨v, rfl, Or.inl (Option.some.inj hv)⟩
      · exact ⟨v, rfl, Or.inr hnr⟩
    | none =>
      have ht : matchHere true prev (a :: rest) = none := by
        cases htv : matchHere true prev (a :: rest) with
        | none => rfl
        | some w =>
          have hw := matchHere_strict_imp htv
          rw [hf] at hw
          cases hw
      rw [ht] at h
      exact ih (some a) y₁ h

/-- C4: `extract_year_from_response` applies its patterns in order —
the strict 4-digit pattern constrained to 1500-2029 before the generic
4-digit pattern — and the returned year is the leftmost match of the
first pattern that matches at all (passed through the [1500, 2024]
range guard of C3): the looser pattern never overrides a match of the
strict one.  In particular on "8000 1969" the strict pattern wins with
1969 even though the generic pattern matches 8000 earlier. -/
theorem extract_year_first_pattern (response : List Char) :
    extract_year_from_response response =
      acceptYear (firstPatternMatch response) ∧
    extract_year_from_response "8000 1969".data = some 1969 := by
  refine ⟨?_, by decide⟩
  cases response with
  | nil => rfl
  | cons a rest =>
    have hunf : extract_year_from_response (a :: rest) =
        match acceptYear (scanFirst true none (a :: rest)) with
        | some y => some y
        | none => acceptYear (scanFirst false none (a :: rest)) := rfl
    rw [hunf]
    cases h1 : scanFirst true none (a :: rest) with
    | none => simp [firstPatternMatch, h1, acceptYear]
    | some y₁ =>
      by_cases hr : 1500 ≤ y₁ ∧ y₁ ≤ 2024
      · simp [firstPatternMatch, h1, acceptYear, hr]
      · have hacc1 : acceptYear (some y₁) = none := by
          simp [acceptYear, hr]
        obtain ⟨y₂, h2, hcase⟩ :=
          scanFirst_false_of_true (a :: rest) none y₁ h1
        have hacc : acceptYear (some y₂) = none := by
          rcases hcase with rfl | hout
          · exact hacc1
          · have hnr : ¬(1500 ≤ y₂ ∧ y₂ ≤ 2024) := fun hc =>
              hout ⟨hc.1, by omega⟩
            simp [acceptYear, hnr]
        have hfp : firstPatternMatch (a :: rest) = some y₁ := by
          simp [firstPatternMatch, h1]
        rw [hacc1, h2, hacc, hfp, hacc1]
